import Mathlib

/-!
Verification development for the locknut repository: a shallow embedding of
the AES-GCM value encryption (src/aes.go) and of the BoltLocknut store
wrapper (src/locknut.go), with theorems settling the specification claims.

Bytes are modelled as `List Nat` with each element intended below 256.
The Go standard-library collaborators used by the source (crypto/aes,
crypto/cipher GCM mode, crypto/sha256, and the bbolt engine's bucket/cursor
contract) are embedded concretely and faithfully to their documented
semantics, validated inside this file against published test vectors.
Randomness (crypto/rand) is modelled as an explicit byte-stream argument.
-/

set_option maxRecDepth 100000

namespace Locknut

/-- Byte strings: lists of naturals, each below 256. -/
abbrev Bytes := List Nat

/-! ## GF(2^8) arithmetic and the AES S-box (FIPS-197) -/

/-- Multiply by x in GF(2^8) modulo the AES polynomial x^8+x^4+x^3+x+1. -/
def xtime8 (a : Nat) : Nat :=
  let a2 := a <<< 1
  if a2 ≥ 256 then a2 ^^^ 0x11b else a2

/-- Carry-less multiplication in GF(2^8) (russian-peasant over 8 bits). -/
def gfMul8 (a b : Nat) : Nat :=
  ((List.range 8).foldl
    (fun p _ =>
      let r := p.1
      let a := p.2.1
      let b := p.2.2
      (if b % 2 == 1 then r ^^^ a else r, (xtime8 a, b / 2)))
    (0, (a, b))).1

/-- The AES S-box (substitution table) as in FIPS-197 / Go crypto/aes. -/
def sboxTable : List Nat :=
  [ 99, 124, 119, 123, 242, 107, 111, 197, 48, 1, 103, 43, 254, 215, 171, 118,
    202, 130, 201, 125, 250, 89, 71, 240, 173, 212, 162, 175, 156, 164, 114, 192,
    183, 253, 147, 38, 54, 63, 247, 204, 52, 165, 229, 241, 113, 216, 49, 21,
    4, 199, 35, 195, 24, 150, 5, 154, 7, 18, 128, 226, 235, 39, 178, 117,
    9, 131, 44, 26, 27, 110, 90, 160, 82, 59, 214, 179, 41, 227, 47, 132,
    83, 209, 0, 237, 32, 252, 177, 91, 106, 203, 190, 57, 74, 76, 88, 207,
    208, 239, 170, 251, 67, 77, 51, 133, 69, 249, 2, 127, 80, 60, 159, 168,
    81, 163, 64, 143, 146, 157, 56, 245, 188, 182, 218, 33, 16, 255, 243, 210,
    205, 12, 19, 236, 95, 151, 68, 23, 196, 167, 126, 61, 100, 93, 25, 115,
    96, 129, 79, 220, 34, 42, 144, 136, 70, 238, 184, 20, 222, 94, 11, 219,
    224, 50, 58, 10, 73, 6, 36, 92, 194, 211, 172, 98, 145, 149, 228, 121,
    231, 200, 55, 109, 141, 213, 78, 169, 108, 86, 244, 234, 101, 122, 174, 8,
    186, 120, 37, 46, 28, 166, 180, 198, 232, 221, 116, 31, 75, 189, 139, 138,
    112, 62, 181, 102, 72, 3, 246, 14, 97, 53, 87, 185, 134, 193, 29, 158,
    225, 248, 152, 17, 105, 217, 142, 148, 155, 30, 135, 233, 206, 85, 40, 223,
    140, 161, 137, 13, 191, 230, 66, 104, 65, 153, 45, 15, 176, 84, 187, 22 ]

/-- S-box lookup on one byte. -/
def sbox (b : Nat) : Nat := sboxTable.getD b 0

/-! ## AES block cipher (key expansion and encryption, FIPS-197) -/

/-- Round constants for key expansion. -/
def rconList : List Nat := [1, 2, 4, 8, 16, 32, 64, 128, 27, 54]

/-- Apply the S-box to each byte of a 32-bit word. -/
def subWord (t : Nat) : Nat :=
  (sbox ((t >>> 24) &&& 255)) <<< 24 |||
  (sbox ((t >>> 16) &&& 255)) <<< 16 |||
  (sbox ((t >>> 8) &&& 255)) <<< 8 |||
  sbox (t &&& 255)

/-- Rotate a 32-bit word left by one byte. -/
def rotWord (t : Nat) : Nat := ((t <<< 8) ||| (t >>> 24)) &&& 0xffffffff

/-- One step of the FIPS-197 key expansion, extending the word list at index i. -/
def keyExpandStep (nk : Nat) (w : List Nat) (i : Nat) : List Nat :=
  let t := w.getD (i - 1) 0
  let t :=
    if i % nk == 0 then
      subWord (rotWord t) ^^^ ((rconList.getD (i / nk - 1) 0) <<< 24)
    else if nk > 6 && i % nk == 4 then subWord t
    else t
  w ++ [w.getD (i - nk) 0 ^^^ t]

/-- Big-endian 32-bit word from four bytes. -/
def word32 (b0 b1 b2 b3 : Nat) : Nat := b0 <<< 24 ||| b1 <<< 16 ||| b2 <<< 8 ||| b3

/-- FIPS-197 key expansion: 4*(Nr+1) round-key words from the cipher key. -/
def keyExpansion (key : Bytes) : List Nat :=
  let nk := key.length / 4
  let nr := nk + 6
  let w0 := (List.range nk).map (fun i =>
    word32 (key.getD (4*i) 0) (key.getD (4*i+1) 0) (key.getD (4*i+2) 0) (key.getD (4*i+3) 0))
  (List.range' nk (4*(nr+1) - nk)).foldl (keyExpandStep nk) w0

/-- Byte r of the round-key column c for round rnd (state is column-major). -/
def roundKeyByte (w : List Nat) (rnd i : Nat) : Nat :=
  (w.getD (4*rnd + i / 4) 0 >>> (8 * (3 - i % 4))) &&& 255

/-- AddRoundKey: xor the state with round key rnd. -/
def addRoundKey (st : List Nat) (w : List Nat) (rnd : Nat) : List Nat :=
  (List.range 16).map (fun i => st.getD i 0 ^^^ roundKeyByte w rnd i)

/-- SubBytes: S-box applied to every state byte. -/
def subBytes (st : List Nat) : List Nat := st.map sbox

/-- ShiftRows on the column-major 16-byte state. -/
def shiftRows : List Nat → List Nat
  | [b0, b1, b2, b3, b4, b5, b6, b7, b8, b9, b10, b11, b12, b13, b14, b15] =>
    [b0, b5, b10, b15, b4, b9, b14, b3, b8, b13, b2, b7, b12, b1, b6, b11]
  | l => l

/-- MixColumns on one 4-byte column. -/
def mixCol : List Nat → List Nat
  | [a0, a1, a2, a3] =>
    [ gfMul8 2 a0 ^^^ gfMul8 3 a1 ^^^ a2 ^^^ a3,
      a0 ^^^ gfMul8 2 a1 ^^^ gfMul8 3 a2 ^^^ a3,
      a0 ^^^ a1 ^^^ gfMul8 2 a2 ^^^ gfMul8 3 a3,
      gfMul8 3 a0 ^^^ a1 ^^^ a2 ^^^ gfMul8 2 a3 ]
  | l => l

/-- MixColumns over the whole state. -/
def mixColumns (st : List Nat) : List Nat :=
  mixCol (st.take 4) ++ mixCol ((st.drop 4).take 4) ++
  mixCol ((st.drop 8).take 4) ++ mixCol ((st.drop 12).take 4)

/-- The middle rounds 1..Nr-1 of the AES cipher. -/
def aesRounds (w : List Nat) (nr : Nat) (st : List Nat) : List Nat :=
  (List.range' 1 (nr - 1)).foldl
    (fun st rnd => addRoundKey (mixColumns (shiftRows (subBytes st))) w rnd) st

/-- AES block encryption (any of the three key sizes; Nr = Nk + 6). -/
def encryptBlock (key block : Bytes) : List Nat :=
  let nk := key.length / 4
  let nr := nk + 6
  let w := keyExpansion key
  let st := addRoundKey block w 0
  addRoundKey (shiftRows (subBytes (aesRounds w nr st))) w nr

/-- Sanity vector: FIPS-197 appendix C.3 (AES-256). -/
theorem aes256_fips_vector :
    encryptBlock (List.range 32)
      [0x00, 0x11, 0x22, 0x33, 0x44, 0x55, 0x66, 0x77,
       0x88, 0x99, 0xaa, 0xbb, 0xcc, 0xdd, 0xee, 0xff] =
      [0x8e, 0xa2, 0xb7, 0xca, 0x51, 0x67, 0x45, 0xbf,
       0xea, 0xfc, 0x49, 0x90, 0x4b, 0x49, 0x60, 0x89] := by decide

/-! ## GCM mode (Go crypto/cipher, NIST SP 800-38D), 12-byte nonce, 16-byte tag -/

/-- Big-endian interpretation of a byte list as a natural number. -/
def blockToNat (bs : Bytes) : Nat := bs.foldl (fun acc b => acc * 256 + b) 0

/-- The 16 big-endian bytes of a 128-bit number. -/
def natToBlock16 (n : Nat) : Bytes :=
  (List.range 16).map (fun i => (n >>> (8 * (15 - i))) &&& 255)

/-- The GCM reduction constant R = 0xe1 followed by 120 zero bits. -/
def gcmR : Nat := 0xe1 <<< 120

/-- Multiplication in GF(2^128) with the GCM bit convention (SP 800-38D, 6.3). -/
def gfMul128 (x y : Nat) : Nat :=
  ((List.range 128).foldl
    (fun p i =>
      let z := p.1
      let v := p.2
      let z := if (x >>> (127 - i)) &&& 1 == 1 then z ^^^ v else z
      let v := if v % 2 == 1 then (v >>> 1) ^^^ gcmR else v >>> 1
      (z, v)) (0, y)).1

/-- GHASH over a sequence of 16-byte blocks with hash subkey h. -/
def ghash (h : Nat) (blocks : List Bytes) : Nat :=
  blocks.foldl (fun y blk => gfMul128 (y ^^^ blockToNat blk) h) 0

/-- Increment the low 32 bits of a counter block (GCM inc32). -/
def inc32 (blk : Bytes) : Bytes :=
  let n := blockToNat blk
  natToBlock16 ((n >>> 32 <<< 32) ||| ((n + 1) % 4294967296))

/-- Iterate inc32 n times. -/
def inc32Iter : Nat → Bytes → Bytes
  | 0, b => b
  | n + 1, b => inc32Iter n (inc32 b)

/-- Byte i of the GCM CTR keystream: byte i % 16 of E_K(inc32^(i/16+1)(J0)). -/
def ksByte (key j0 : Bytes) (i : Nat) : Nat :=
  (encryptBlock key (inc32Iter (i / 16 + 1) j0)).getD (i % 16) 0

/-- Counter-mode xor of a byte stream with the keystream, starting at index i. -/
def ctrGo (ks : Nat → Nat) : Nat → Bytes → Bytes
  | _, [] => []
  | i, b :: rest => (b ^^^ ks i) :: ctrGo ks (i + 1) rest

/-- Split a byte list into zero-padded 16-byte blocks (fuel-driven). -/
def chunk16 : Nat → Bytes → List Bytes
  | 0, _ => []
  | _, [] => []
  | fuel + 1, l =>
    let c := l.take 16
    (c ++ List.replicate (16 - c.length) 0) :: chunk16 fuel (l.drop 16)

/-- The GCM authentication tag for ciphertext ct (no associated data). -/
def gcmTag (key nonce ct : Bytes) : Bytes :=
  let h := blockToNat (encryptBlock key (List.replicate 16 0))
  let j0 := nonce ++ [0, 0, 0, 1]
  let tagMask := blockToNat (encryptBlock key j0)
  let s := ghash h (chunk16 ct.length ct ++ [natToBlock16 (ct.length * 8)])
  natToBlock16 (s ^^^ tagMask)

/-- GCM Seal with dst empty: ciphertext followed by the tag. -/
def gcmSeal (key nonce plain : Bytes) : Bytes :=
  ctrGo (ksByte key (nonce ++ [0, 0, 0, 1])) 0 plain ++
    gcmTag key nonce (ctrGo (ksByte key (nonce ++ [0, 0, 0, 1])) 0 plain)

/-- Error returned by GCM Open on authentication failure or short input. -/
def errOpenGCM : String := "cipher: message authentication failed"

/-- Error returned by the source Decrypt when the payload misses its nonce. -/
def errCiphertextShort : String := "ciphertext too short"

/-- The error string of crypto/aes for an invalid key size. -/
def aesKeySizeErr (n : Nat) : String := "crypto/aes: invalid key size " ++ toString n

/-- Key sizes accepted by aes.NewCipher: 16, 24 or 32 bytes. -/
def aesKeyOk (key : Bytes) : Bool :=
  key.length == 16 || key.length == 24 || key.length == 32

/-- GCM Open: verify the tag, then decrypt in counter mode. -/
def gcmOpen (key nonce cipherAndTag : Bytes) : Except String Bytes :=
  if cipherAndTag.length < 16 then .error errOpenGCM
  else if cipherAndTag.drop (cipherAndTag.length - 16) =
      gcmTag key nonce (cipherAndTag.take (cipherAndTag.length - 16)) then
    .ok (ctrGo (ksByte key (nonce ++ [0, 0, 0, 1])) 0
      (cipherAndTag.take (cipherAndTag.length - 16)))
  else .error errOpenGCM

/-! ## The receiverless Encrypt and Decrypt of src/aes.go

Randomness (crypto/rand.Reader) is modelled by an explicit byte stream
`rand : Nat → Nat`; io.ReadFull draws the 12 nonce bytes from it. -/

/-- src/aes.go Encrypt: fresh nonce, then gcm.Seal(nonce, nonce, plain, nil). -/
def Encrypt (plain key : Bytes) (rand : Nat → Nat) : Except String Bytes :=
  if aesKeyOk key then
    let nonce := (List.range 12).map rand
    .ok (nonce ++ gcmSeal key nonce plain)
  else .error (aesKeySizeErr key.length)

/-- src/aes.go Decrypt (receiverless): split the nonce prefix, then gcm.Open. -/
def Decrypt (ciphertext key : Bytes) : Except String Bytes :=
  if aesKeyOk key then
    if ciphertext.length < 12 then .error errCiphertextShort
    else gcmOpen key (ciphertext.take 12) (ciphertext.drop 12)
  else .error (aesKeySizeErr key.length)

/-- Sanity vector: AES-256-GCM with the all-zero key, nonce and empty plaintext. -/
theorem aes256_gcm_vector :
    Encrypt [] (List.replicate 32 0) (fun _ => 0) =
      .ok (List.replicate 12 0 ++
        [0x53, 0x0f, 0x8a, 0xfb, 0xc7, 0x45, 0x36, 0xb9,
         0xa9, 0x63, 0xb4, 0xf1, 0xc4, 0xcb, 0x73, 0x8b]) := by rfl

/-! ## Round-trip lemmas for the GCM layer -/

theorem ctrGo_length (ks : Nat → Nat) : ∀ (i : Nat) (l : Bytes),
    (ctrGo ks i l).length = l.length
  | _, [] => rfl
  | i, _ :: rest => by simp [ctrGo, ctrGo_length ks (i + 1) rest]

theorem ctrGo_ctrGo (ks : Nat → Nat) : ∀ (i : Nat) (l : Bytes),
    ctrGo ks i (ctrGo ks i l) = l
  | _, [] => rfl
  | i, b :: rest => by
    simp [ctrGo, ctrGo_ctrGo ks (i + 1) rest, Nat.xor_cancel_right]

theorem natToBlock16_length (n : Nat) : (natToBlock16 n).length = 16 := by
  simp [natToBlock16]

theorem gcmTag_length (key nonce ct : Bytes) : (gcmTag key nonce ct).length = 16 :=
  natToBlock16_length _

/-- Opening a sealed payload with the same key and nonce restores the plaintext. -/
theorem gcmOpen_gcmSeal (key nonce plain : Bytes) :
    gcmOpen key nonce (gcmSeal key nonce plain) = .ok plain := by
  have h1 : (ctrGo (ksByte key (nonce ++ [0, 0, 0, 1])) 0 plain).length = plain.length :=
    ctrGo_length _ _ _
  have h2 := gcmTag_length key nonce (ctrGo (ksByte key (nonce ++ [0, 0, 0, 1])) 0 plain)
  unfold gcmSeal gcmOpen
  have hlen : (ctrGo (ksByte key (nonce ++ [0, 0, 0, 1])) 0 plain ++
      gcmTag key nonce (ctrGo (ksByte key (nonce ++ [0, 0, 0, 1])) 0 plain)).length =
      plain.length + 16 := by
    rw [List.length_append, h1, h2]
  rw [if_neg (by omega)]
  have hsub : (ctrGo (ksByte key (nonce ++ [0, 0, 0, 1])) 0 plain ++
      gcmTag key nonce (ctrGo (ksByte key (nonce ++ [0, 0, 0, 1])) 0 plain)).length - 16 =
      (ctrGo (ksByte key (nonce ++ [0, 0, 0, 1])) 0 plain).length := by omega
  rw [hsub, List.take_left, List.drop_left, if_pos rfl, ctrGo_ctrGo]

/-- C1. For every plaintext byte sequence and valid 32-byte key, decrypting the
payload produced by the receiverless Encrypt with the same key returns exactly
the plaintext. -/
theorem encrypt_decrypt_roundtrip (plain key : Bytes) (rand : Nat → Nat)
    (hk : key.length = 32) (hp : ∀ b ∈ plain, b < 256) :
    ∃ c, Encrypt plain key rand = .ok c ∧ Decrypt c key = .ok plain := by
  have hok : aesKeyOk key = true := by simp [aesKeyOk, hk]
  refine ⟨(List.range 12).map rand ++ gcmSeal key ((List.range 12).map rand) plain,
    by simp [Encrypt, hok], ?_⟩
  have hn : ((List.range 12).map rand).length = 12 := by simp
  have hs : (gcmSeal key ((List.range 12).map rand) plain).length = plain.length + 16 := by
    unfold gcmSeal
    rw [List.length_append, ctrGo_length, gcmTag_length]
  unfold Decrypt
  rw [hok, if_pos rfl, if_neg (by rw [List.length_append, hn]; omega),
    List.take_left' hn, List.drop_left' hn]
  exact gcmOpen_gcmSeal key _ plain

/-- Closed witness for the round-trip theorem at a concrete input. -/
theorem encrypt_decrypt_roundtrip_witness :
    ∃ c, Encrypt [1, 2, 3] (List.range 32) (fun i => i) = .ok c ∧
      Decrypt c (List.range 32) = .ok [1, 2, 3] :=
  encrypt_decrypt_roundtrip [1, 2, 3] (List.range 32) (fun i => i)
    (by decide) (by decide)

/-- C8. Encrypt prefixes the freshly drawn 12-byte nonce to the sealed output,
so two runs over distinct random streams (distinct nonces) produce distinct
ciphertext payloads for the same plaintext and key. -/
theorem encrypt_distinct_nonces_distinct_payloads (plain key : Bytes)
    (r1 r2 : Nat → Nat) (hk : key.length = 32)
    (hne : (List.range 12).map r1 ≠ (List.range 12).map r2) :
    (∃ p, Encrypt plain key r1 = .ok p ∧ p.take 12 = (List.range 12).map r1) ∧
      Encrypt plain key r1 ≠ Encrypt plain key r2 := by
  have hok : aesKeyOk key = true := by simp [aesKeyOk, hk]
  constructor
  · exact ⟨(List.range 12).map r1 ++ gcmSeal key ((List.range 12).map r1) plain,
      by simp [Encrypt, hok], List.take_left' (by simp)⟩
  · intro heq
    simp only [Encrypt, hok, if_true, Except.ok.injEq] at heq
    apply hne
    have h12 := congrArg (List.take 12) heq
    rwa [List.take_left' (by simp), List.take_left' (by simp)] at h12

/-- Closed witness for the distinct-nonce theorem at concrete random streams. -/
theorem encrypt_distinct_nonces_witness :
    (∃ p, Encrypt [7] (List.range 32) (fun _ => 0) = .ok p ∧
        p.take 12 = (List.range 12).map (fun _ => 0)) ∧
      Encrypt [7] (List.range 32) (fun _ => 0) ≠ Encrypt [7] (List.range 32) (fun _ => 1) :=
  encrypt_distinct_nonces_distinct_payloads [7] (List.range 32) (fun _ => 0) (fun _ => 1)
    (by decide) (by decide)

/-! ## SHA-256 (Go crypto/sha256, FIPS 180-4) -/

/-- Rotate a 32-bit word right by n. -/
def rotr32 (x n : Nat) : Nat := ((x >>> n) ||| (x <<< (32 - n))) &&& 0xffffffff

/-- SHA-256 round constants (fractional parts of cube roots of the first 64 primes). -/
def shaK : List Nat :=
  [ 1116352408, 1899447441, 3049323471, 3921009573, 961987163, 1508970993, 2453635748, 2870763221,
    3624381080, 310598401, 607225278, 1426881987, 1925078388, 2162078206, 2614888103, 3248222580,
    3835390401, 4022224774, 264347078, 604807628, 770255983, 1249150122, 1555081692, 1996064986,
    2554220882, 2821834349, 2952996808, 3210313671, 3336571891, 3584528711, 113926993, 338241895,
    666307205, 773529912, 1294757372, 1396182291, 1695183700, 1986661051, 2177026350, 2456956037,
    2730485921, 2820302411, 3259730800, 3345764771, 3516065817, 3600352804, 4094571909, 275423344,
    430227734, 506948616, 659060556, 883997877, 958139571, 1322822218, 1537002063, 1747873779,
    1955562222, 2024104815, 2227730452, 2361852424, 2428436474, 2756734187, 3204031479, 3329325298 ]

/-- SHA-256 initial hash words (fractional parts of square roots of the first 8 primes). -/
def shaH0 : List Nat :=
  [1779033703, 3144134277, 1013904242, 2773480762, 1359893119, 2600822924, 528734635, 1541459225]

/-- FIPS 180-4 padding: 0x80, zeros, then the 64-bit big-endian bit length. -/
def shaPad (msg : Bytes) : Bytes :=
  msg ++ 0x80 :: List.replicate ((64 - (msg.length + 9) % 64) % 64) 0 ++
    (List.range 8).map (fun i => ((msg.length * 8) >>> (8 * (7 - i))) &&& 255)

/-- Split a byte list into 64-byte chunks (fuel-driven). -/
def chunks64 : Nat → Bytes → List Bytes
  | 0, _ => []
  | _, [] => []
  | fuel + 1, l => l.take 64 :: chunks64 fuel (l.drop 64)

/-- Nonlinear word functions of the SHA-256 compression. -/
def bigSigma0 (x : Nat) : Nat := rotr32 x 2 ^^^ rotr32 x 13 ^^^ rotr32 x 22

def bigSigma1 (x : Nat) : Nat := rotr32 x 6 ^^^ rotr32 x 11 ^^^ rotr32 x 25

def smallSigma0 (x : Nat) : Nat := rotr32 x 7 ^^^ rotr32 x 18 ^^^ (x >>> 3)

def smallSigma1 (x : Nat) : Nat := rotr32 x 17 ^^^ rotr32 x 19 ^^^ (x >>> 10)

/-- The 64-word message schedule for one block. -/
def shaSchedule (block : Bytes) : List Nat :=
  (List.range 48).foldl
    (fun w _ =>
      let i := w.length
      w ++ [(smallSigma1 (w.getD (i - 2) 0) + w.getD (i - 7) 0 +
             smallSigma0 (w.getD (i - 15) 0) + w.getD (i - 16) 0) % 4294967296])
    ((List.range 16).map (fun i =>
      word32 (block.getD (4*i) 0) (block.getD (4*i+1) 0)
        (block.getD (4*i+2) 0) (block.getD (4*i+3) 0)))

/-- One SHA-256 compression step over a block, updating the 8 hash words. -/
def shaCompress (h : List Nat) (block : Bytes) : List Nat :=
  let w := shaSchedule block
  let st := (List.range 64).foldl
    (fun st t =>
      let a := st.getD 0 0
      let b := st.getD 1 0
      let c := st.getD 2 0
      let d := st.getD 3 0
      let e := st.getD 4 0
      let f := st.getD 5 0
      let g := st.getD 6 0
      let hh := st.getD 7 0
      let ch := (e &&& f) ^^^ ((0xffffffff ^^^ e) &&& g)
      let t1 := (hh + bigSigma1 e + ch + shaK.getD t 0 + w.getD t 0) % 4294967296
      let maj := (a &&& b) ^^^ (a &&& c) ^^^ (b &&& c)
      let t2 := (bigSigma0 a + maj) % 4294967296
      [(t1 + t2) % 4294967296, a, b, c, (d + t1) % 4294967296, e, f, g])
    h
  (List.range 8).map (fun i => (h.getD i 0 + st.getD i 0) % 4294967296)

/-- Big-endian bytes of one 32-bit word. -/
def toBytes4 (x : Nat) : Bytes :=
  [(x >>> 24) &&& 255, (x >>> 16) &&& 255, (x >>> 8) &&& 255, x &&& 255]

/-- Serialize the 8 hash words into the 32-byte digest. -/
def sha256Assemble (hs : List Nat) : Bytes :=
  toBytes4 (hs.getD 0 0) ++ toBytes4 (hs.getD 1 0) ++ toBytes4 (hs.getD 2 0) ++
  toBytes4 (hs.getD 3 0) ++ toBytes4 (hs.getD 4 0) ++ toBytes4 (hs.getD 5 0) ++
  toBytes4 (hs.getD 6 0) ++ toBytes4 (hs.getD 7 0)

/-- SHA-256 digest of a byte string. -/
def sha256 (msg : Bytes) : Bytes :=
  sha256Assemble ((chunks64 (shaPad msg).length (shaPad msg)).foldl shaCompress shaH0)

/-- Sanity vector: SHA-256 of the empty string. -/
theorem sha256_empty_vector :
    sha256 [] =
      [227, 176, 196, 66, 152, 252, 28, 20, 154, 251, 244, 200, 153, 111, 185, 36,
       39, 174, 65, 228, 100, 155, 147, 76, 164, 149, 153, 27, 120, 82, 184, 85] := by decide

/-- A SHA-256 digest always has 32 bytes. -/
theorem sha256_length (msg : Bytes) : (sha256 msg).length = 32 := by
  simp [sha256, sha256Assemble, toBytes4]

/-! ## The bbolt engine model

The collaborator engine (go.etcd.io/bbolt) is embedded by its documented
contract: named buckets hold (key, value) records in ascending
byte-lexicographic key order; a cursor seek positions at the first key not
below the seek key; Put rejects empty and oversized keys; Delete of an
absent key is not an error; CreateBucketIfNotExists rejects empty names.
Bucket names, keys and values are byte strings. -/

/-- A bucket: records as (key, value) pairs kept in ascending key order. -/
abbrev Bucket := List (Bytes × Bytes)

/-- A store file: named buckets. -/
abbrev Store := List (Bytes × Bucket)

/-- Byte-lexicographic strictly-less (bytes.Compare < 0). -/
def bytesLt : Bytes → Bytes → Bool
  | [], [] => false
  | [], _ :: _ => true
  | _ :: _, [] => false
  | a :: as, b :: bs => if a < b then true else if b < a then false else bytesLt as bs

/-- bytes.HasPrefix. -/
def hasPfx (s pre : Bytes) : Bool := pre.isPrefixOf s

/-- tx.Bucket: look a bucket up by name; nil when absent. -/
def findBucket (st : Store) (name : Bytes) : Option Bucket :=
  (st.find? (fun p => p.1 == name)).map (fun p => p.2)

/-- Cursor Seek: the tail of the bucket from the first key not below the
seek key (with Next stepping through the tail). -/
def seek (bkt : Bucket) (key : Bytes) : Bucket :=
  bkt.dropWhile (fun p => bytesLt p.1 key)

/-- Ordered insert-or-replace of one record. -/
def bucketInsert : Bucket → Bytes → Bytes → Bucket
  | [], k, v => [(k, v)]
  | (k', v') :: rest, k, v =>
    if k = k' then (k, v) :: rest
    else if bytesLt k k' then (k, v) :: (k', v') :: rest
    else (k', v') :: bucketInsert rest k v

/-- bbolt ErrKeyRequired. -/
def errKeyRequired : String := "key required"

/-- bbolt ErrKeyTooLarge. -/
def errKeyTooLarge : String := "key too large"

/-- bbolt ErrValueTooLarge. -/
def errValueTooLarge : String := "value too large"

/-- bbolt ErrBucketNameRequired. -/
def errBucketNameRequired : String := "bucket name required"

/-- bbolt Bucket.Put: reject empty and oversized keys and values, else insert. -/
def bboltPut (bkt : Bucket) (k v : Bytes) : Except String Bucket :=
  if k = [] then .error errKeyRequired
  else if 32768 < k.length then .error errKeyTooLarge
  else if 2147483646 < v.length then .error errValueTooLarge
  else .ok (bucketInsert bkt k v)

/-- bbolt Bucket.Delete: removing an absent key is not an error. -/
def bboltDelete (bkt : Bucket) (k : Bytes) : Bucket :=
  bkt.filter (fun p => !(p.1 == k))

/-- tx.CreateBucketIfNotExists. -/
def createBucketIfNotExists (st : Store) (name : Bytes) : Except String Store :=
  if name = [] then .error errBucketNameRequired
  else if (findBucket st name).isSome then .ok st
  else .ok (st ++ [(name, [])])

/-- Replace the records of one named bucket (a committed write transaction). -/
def setBucket (st : Store) (name : Bytes) (recs : Bucket) : Store :=
  st.map (fun p => if p.1 == name then (p.1, recs) else p)

/-! ## The BoltLocknut handle (src/locknut.go) -/

/-- The handle state. The file-path fields and their validation are outside
the model (thin I/O glue per the spec); the live connection is a numeric
identifier so that persistence of one connection across calls is
observable. -/
structure BoltLocknut where
  secret : Option Bytes
  batchMode : Bool
  buckets : List Bytes
  db : Option Nat
deriving DecidableEq

/-- Per-operation environment: the bbolt.Open outcome, the identifier a
successful open produces, and the crypto/rand stream for nonces. -/
structure Env where
  openErr : Option String
  fresh : Nat
  rand : Nat → Nat

/-- locknut ErrKeyInvalid. -/
def errKeyInvalid : String := "invalid key or key is nil"

/-- bbolt ErrBucketNotFound, surfaced by the read operations. -/
def errBucketNotFound : String := "bucket not found"

/-- Save error for nil data. -/
def errDataNil : String := "data is nil"

/-- Delete error for an empty key. -/
def errDeleteKeyNil : String := "cannot delete, key is nil"

/-- Wrapping of a decryption failure inside a read. -/
def errDecryptWrap (e : String) : String := "Decrypt error from db " ++ e

/-- Wrapping of an encryption failure inside a write. -/
def errEncryptWrap (e : String) : String := "Encrypt error from db " ++ e

/-- SetSecret: a secret shorter than 32 bytes is replaced by its SHA-256
digest; len(nil) = 0, so a nil secret also becomes a digest. -/
def SetSecret (bl : BoltLocknut) (secret : Option Bytes) : BoltLocknut :=
  if (secret.getD []).length < 32 then
    { bl with secret := some (sha256 (secret.getD [])) }
  else { bl with secret := secret }

/-- closeDB: closes only when batch mode is off and a connection is live. -/
def closeDB (bl : BoltLocknut) : BoltLocknut :=
  if !bl.batchMode && bl.db.isSome then { bl with db := none } else bl

/-- Initialize the configured buckets (the openDB update transaction). -/
def initBuckets (st : Store) : List Bytes → Except String Store
  | [] => .ok st
  | n :: rest =>
    match createBucketIfNotExists st n with
    | .error e => .error e
    | .ok st' => initBuckets st' rest

/-- openDB: a no-op when batch mode is on and a connection is live;
otherwise open the file (which may fail) and ensure the buckets exist.
On failure the handle is unchanged. -/
def openDB (bl : BoltLocknut) (st : Store) (env : Env) :
    Except String (BoltLocknut × Store) :=
  if bl.batchMode && bl.db.isSome then .ok (bl, st)
  else
    match env.openErr with
    | some e => .error e
    | none =>
      match initBuckets st bl.buckets with
      | .error e => .error e
      | .ok st' => .ok ({ bl with db := some env.fresh }, st')

/-- SetBatchMode: turning batch mode off closes any live connection. -/
def SetBatchMode (bl : BoltLocknut) (mode : Bool) : BoltLocknut :=
  if !mode then closeDB { bl with batchMode := mode }
  else { bl with batchMode := mode }

/-- NewBoltLocknut (path validation omitted as I/O glue): derive the secret,
open once to initialize the buckets, and close again unless in batch mode. -/
def NewBoltLocknut (secret : Option Bytes) (batchMode : Bool) (buckets : List Bytes)
    (st : Store) (env : Env) : Except String (BoltLocknut × Store) :=
  match openDB (SetSecret ⟨none, batchMode, buckets, none⟩ secret) st env with
  | .error e => .error e
  | .ok (bl, st') => .ok (closeDB bl, st')

/-- The first return value of an operation. -/
inductive RVal where
  | noval : RVal
  | bytes : Option Bytes → RVal
  | map : List (Bytes × Bytes) → RVal
  | keys : List Bytes → RVal
deriving DecidableEq

/-- The observable outcome of one public operation: the handle and store it
leaves behind, the two Go return values, and whether it panicked (a nil
bucket dereference). Deferred closeDB also runs during panic unwinding. -/
structure OpOut where
  handle : BoltLocknut
  store : Store
  val : RVal
  err : Option String
  panicked : Bool
deriving DecidableEq

/-- Read-path value decoding: transparent decrypt when a secret is set. -/
def decodeVal (secret : Option Bytes) (v : Bytes) : Except String Bytes :=
  match secret with
  | none => .ok v
  | some s =>
    match Decrypt v s with
    | .error e => .error (errDecryptWrap e)
    | .ok d => .ok d

/-- Write-path value encoding: transparent encrypt when a secret is set. -/
def encodeVal (secret : Option Bytes) (v : Bytes) (rand : Nat → Nat) :
    Except String Bytes :=
  match secret with
  | none => .ok v
  | some s =>
    match Encrypt v s rand with
    | .error e => .error (errEncryptWrap e)
    | .ok enc => .ok enc

/-- The view body of GetOne: seek at key and return the record's (decoded)
value only when the found key has the lookup key as a prefix. -/
def getOneView (secret : Option Bytes) (st : Store) (bucket key : Bytes) :
    Except String (Option Bytes) :=
  match findBucket st bucket with
  | none => .error errBucketNotFound
  | some bkt =>
    match seek bkt key with
    | [] => .ok none
    | (k, v) :: _ =>
      if hasPfx k key then
        match decodeVal secret v with
        | .error e => .error e
        | .ok d => .ok (some d)
      else .ok none

/-- GetOne. -/
def GetOne (bl : BoltLocknut) (st : Store) (env : Env) (bucket key : Bytes) : OpOut :=
  match openDB bl st env with
  | .error e => ⟨bl, st, .bytes none, some e, false⟩
  | .ok (bl1, st1) =>
    if key = [] then ⟨closeDB bl1, st1, .bytes none, some errKeyInvalid, false⟩
    else
      match getOneView bl1.secret st1 bucket key with
      | .error e => ⟨closeDB bl1, st1, .bytes none, some e, false⟩
      | .ok r => ⟨closeDB bl1, st1, .bytes r, none, false⟩

/-- The scan loop of GetByPrefix: iterate from the seek position while the
prefix matches, decoding each value; a decode failure stops the scan with
the wrapped error, with the records accumulated so far kept. The
all-empty corner case breaks the loop. -/
def gbpLoop (secret : Option Bytes) (pre : Bytes) :
    Bucket → List (Bytes × Bytes) × Option String
  | [] => ([], none)
  | (k, v) :: rest =>
    if hasPfx k pre then
      if pre = [] ∧ k = [] ∧ v = [] then ([], none)
      else
        match decodeVal secret v with
        | .error e => ([], some e)
        | .ok d => ((k, d) :: (gbpLoop secret pre rest).1, (gbpLoop secret pre rest).2)
    else ([], none)

/-- GetByPrefix: both the (possibly partial) mapping and the error are
returned, as in the source. -/
def GetByPrefixScan (bl : BoltLocknut) (st : Store) (env : Env) (bucket pre : Bytes) :
    OpOut :=
  match openDB bl st env with
  | .error e => ⟨bl, st, .map [], some e, false⟩
  | .ok (bl1, st1) =>
    match findBucket st1 bucket with
    | none => ⟨closeDB bl1, st1, .map [], some errBucketNotFound, false⟩
    | some bkt =>
      ⟨closeDB bl1, st1, .map (gbpLoop bl1.secret pre (seek bkt pre)).1,
        (gbpLoop bl1.secret pre (seek bkt pre)).2, false⟩

/-- GetKeyList: keys only, no value decoding. -/
def GetKeyList (bl : BoltLocknut) (st : Store) (env : Env) (bucket pre : Bytes) : OpOut :=
  match openDB bl st env with
  | .error e => ⟨bl, st, .keys [], some e, false⟩
  | .ok (bl1, st1) =>
    match findBucket st1 bucket with
    | none => ⟨closeDB bl1, st1, .keys [], some errBucketNotFound, false⟩
    | some bkt =>
      ⟨closeDB bl1, st1,
        .keys (((seek bkt pre).takeWhile (fun p => hasPfx p.1 pre)).map (fun p => p.1)),
        none, false⟩

/-- Save. json.Marshal of the caller's data is modelled by the serialized
bytes being supplied directly (none models a nil interface value). The
bucket handle is never nil-checked: a missing bucket is a nil dereference
(panic) at Put, reached only after marshal and encrypt succeed. -/
def Save (bl : BoltLocknut) (st : Store) (env : Env) (bucket key : Bytes)
    (data : Option Bytes) : OpOut :=
  match openDB bl st env with
  | .error e => ⟨bl, st, .noval, some e, false⟩
  | .ok (bl1, st1) =>
    match data with
    | none => ⟨closeDB bl1, st1, .noval, some errDataNil, false⟩
    | some d =>
      match encodeVal bl1.secret d env.rand with
      | .error e => ⟨closeDB bl1, st1, .noval, some e, false⟩
      | .ok enc =>
        match findBucket st1 bucket with
        | none => ⟨closeDB bl1, st1, .noval, none, true⟩
        | some bkt =>
          match bboltPut bkt key enc with
          | .error e => ⟨closeDB bl1, st1, .noval, some e, false⟩
          | .ok bkt' => ⟨closeDB bl1, setBucket st1 bucket bkt', .noval, none, false⟩

/-- SaveBytes: as Save without the marshal step (raw bytes stored). -/
def SaveBytes (bl : BoltLocknut) (st : Store) (env : Env) (bucket key : Bytes)
    (data : Option Bytes) : OpOut :=
  match openDB bl st env with
  | .error e => ⟨bl, st, .noval, some e, false⟩
  | .ok (bl1, st1) =>
    match data with
    | none => ⟨closeDB bl1, st1, .noval, some errDataNil, false⟩
    | some d =>
      match encodeVal bl1.secret d env.rand with
      | .error e => ⟨closeDB bl1, st1, .noval, some e, false⟩
      | .ok enc =>
        match findBucket st1 bucket with
        | none => ⟨closeDB bl1, st1, .noval, none, true⟩
        | some bkt =>
          match bboltPut bkt key enc with
          | .error e => ⟨closeDB bl1, st1, .noval, some e, false⟩
          | .ok bkt' => ⟨closeDB bl1, setBucket st1 bucket bkt', .noval, none, false⟩

/-- Delete: the bucket handle is never nil-checked; a missing bucket is a
nil dereference (panic) at Delete. -/
def Delete (bl : BoltLocknut) (st : Store) (env : Env) (bucket key : Bytes) : OpOut :=
  match openDB bl st env with
  | .error e => ⟨bl, st, .noval, some e, false⟩
  | .ok (bl1, st1) =>
    if key = [] then ⟨closeDB bl1, st1, .noval, some errDeleteKeyNil, false⟩
    else
      match findBucket st1 bucket with
      | none => ⟨closeDB bl1, st1, .noval, none, true⟩
      | some bkt =>
        ⟨closeDB bl1, setBucket st1 bucket (bboltDelete bkt key), .noval, none, false⟩

/-- The public operations, for statements quantifying over all of them. -/
inductive Op where
  | getOne (bucket key : Bytes)
  | getByPrefixOp (bucket pre : Bytes)
  | getKeyList (bucket pre : Bytes)
  | save (bucket key : Bytes) (data : Option Bytes)
  | saveBytes (bucket key : Bytes) (data : Option Bytes)
  | delete (bucket key : Bytes)

/-- Dispatch one public operation. -/
def applyOp (op : Op) (bl : BoltLocknut) (st : Store) (env : Env) : OpOut :=
  match op with
  | .getOne b k => GetOne bl st env b k
  | .getByPrefixOp b p => GetByPrefixScan bl st env b p
  | .getKeyList b p => GetKeyList bl st env b p
  | .save b k d => Save bl st env b k d
  | .saveBytes b k d => SaveBytes bl st env b k d
  | .delete b k => Delete bl st env b k

/-- Go string literals as byte strings. -/
def strBytes (s : String) : Bytes := s.data.map Char.toNat

/-! ## Structural lemmas about the lifecycle helpers -/

theorem closeDB_db_of_not_batch (bl : BoltLocknut) (h : bl.batchMode = false) :
    (closeDB bl).db = none := by
  unfold closeDB
  cases hdb : bl.db <;> simp [h, hdb]

theorem closeDB_of_batch (bl : BoltLocknut) (h : bl.batchMode = true) :
    closeDB bl = bl := by
  unfold closeDB
  simp [h]

theorem closeDB_secret (bl : BoltLocknut) : (closeDB bl).secret = bl.secret := by
  unfold closeDB
  split <;> rfl

theorem openDB_ok_cases (bl : BoltLocknut) (st : Store) (env : Env)
    (bl1 : BoltLocknut) (st1 : Store) (h : openDB bl st env = .ok (bl1, st1)) :
    bl1 = bl ∨ bl1 = { bl with db := some env.fresh } := by
  unfold openDB at h
  split at h
  · left
    simp only [Except.ok.injEq, Prod.mk.injEq] at h
    exact h.1.symm
  · split at h
    · exact absurd h (by simp)
    · split at h
      · exact absurd h (by simp)
      · right
        simp only [Except.ok.injEq, Prod.mk.injEq] at h
        exact h.1.symm

theorem openDB_ok_batchMode (bl : BoltLocknut) (st : Store) (env : Env)
    (bl1 : BoltLocknut) (st1 : Store) (h : openDB bl st env = .ok (bl1, st1)) :
    bl1.batchMode = bl.batchMode := by
  rcases openDB_ok_cases bl st env bl1 st1 h with h1 | h1 <;> rw [h1]

theorem openDB_ok_secret (bl : BoltLocknut) (st : Store) (env : Env)
    (bl1 : BoltLocknut) (st1 : Store) (h : openDB bl st env = .ok (bl1, st1)) :
    bl1.secret = bl.secret := by
  rcases openDB_ok_cases bl st env bl1 st1 h with h1 | h1 <;> rw [h1]

theorem openDB_of_batch_some (bl : BoltLocknut) (st : Store) (env : Env) (c : Nat)
    (hb : bl.batchMode = true) (hdb : bl.db = some c) :
    openDB bl st env = .ok (bl, st) := by
  unfold openDB
  rw [if_pos (by simp [hb, hdb])]

theorem bboltPut_ok (bkt : Bucket) (k v : Bytes) (bkt' : Bucket)
    (h : bboltPut bkt k v = .ok bkt') :
    k ≠ [] ∧ bkt' = bucketInsert bkt k v := by
  unfold bboltPut at h
  split at h
  · exact absurd h (by simp)
  · split at h
    · exact absurd h (by simp)
    · split at h
      · exact absurd h (by simp)
      · simp only [Except.ok.injEq] at h
        refine ⟨?_, h.symm⟩
        intro hk
        simp [hk] at *

/-! ## C2: the effective key after SetSecret -/

/-- C2 counterexample. A 33-byte secret is kept as-is by SetSecret: the
effective key has 33 bytes, aes.NewCipher rejects it, and a subsequent Save
fails at the key-setup step instead of succeeding. -/
theorem setSecret_long_secret_counterexample :
    (SetSecret ⟨none, false, [], none⟩ (some (List.replicate 33 7))).secret =
        some (List.replicate 33 7) ∧
      aesKeyOk (List.replicate 33 7) = false ∧
      Encrypt [] (List.replicate 33 7) (fun _ => 0) = .error (aesKeySizeErr 33) ∧
      (applyOp (.save (strBytes ("b")) [107] (some [1]))
          ⟨some (List.replicate 33 7), false, [], none⟩ [(strBytes ("b"), [])]
          ⟨none, 0, fun _ => 0⟩).err =
        some (errEncryptWrap (aesKeySizeErr 33)) := by
  exact ⟨by decide, by decide, rfl, by decide⟩

/-- C2 amended. After SetSecret the effective key is the 32-byte SHA-256
digest when the supplied secret is shorter than 32 bytes (and the cipher
accepts it); a secret of 32 bytes or more is used as-is, unchanged and
untruncated, so the cipher accepts it exactly when the secret is exactly
32 bytes long. -/
theorem setSecret_effective_key (bl : BoltLocknut) (secret : Option Bytes) :
    ((secret.getD []).length < 32 →
      (SetSecret bl secret).secret = some (sha256 (secret.getD [])) ∧
        (sha256 (secret.getD [])).length = 32 ∧
        aesKeyOk (sha256 (secret.getD [])) = true) ∧
    (∀ s, secret = some s → 32 ≤ s.length →
      (SetSecret bl secret).secret = some s ∧ (aesKeyOk s = true ↔ s.length = 32)) := by
  constructor
  · intro h
    refine ⟨?_, sha256_length _, ?_⟩
    · unfold SetSecret
      rw [if_pos h]
    · simp [aesKeyOk, sha256_length]
  · intro s hs hlen
    subst hs
    constructor
    · unfold SetSecret
      rw [if_neg (by simp only [Option.getD_some]; omega)]
    · simp only [aesKeyOk, Bool.or_eq_true, beq_iff_eq]
      omega

/-- Closed witness for the amended C2 theorem, at a short and a 32-byte secret. -/
theorem setSecret_effective_key_witness :
    ((SetSecret ⟨none, false, [], none⟩ (some [1, 2, 3])).secret = some (sha256 [1, 2, 3]) ∧
      (sha256 [1, 2, 3]).length = 32 ∧ aesKeyOk (sha256 [1, 2, 3]) = true) ∧
    ((SetSecret ⟨none, false, [], none⟩ (some (List.range 32))).secret =
        some (List.range 32) ∧
      (aesKeyOk (List.range 32) = true ↔ (List.range 32).length = 32)) :=
  ⟨(setSecret_effective_key ⟨none, false, [], none⟩ (some [1, 2, 3])).1 (by decide),
   (setSecret_effective_key ⟨none, false, [], none⟩ (some (List.range 32))).2
     (List.range 32) rfl (by decide)⟩

/-! ## C5: connection lifecycle -/

/-- C5. With batch mode off, every public operation leaves the connection
reference null on every exit path (error paths and panics included); with
batch mode on, a live connection persists unchanged across operations. -/
theorem connection_lifecycle (op : Op) (bl : BoltLocknut) (st : Store) (env : Env) :
    (bl.batchMode = false → bl.db = none →
      (applyOp op bl st env).handle.db = none) ∧
    (∀ c, bl.batchMode = true → bl.db = some c →
      (applyOp op bl st env).handle.db = some c) := by
  constructor
  · intro hb hdb
    have key : ∀ bl1 st1, openDB bl st env = .ok (bl1, st1) → bl1.batchMode = false := by
      intro bl1 st1 h
      rw [openDB_ok_batchMode bl st env bl1 st1 h, hb]
    cases op <;>
      simp only [applyOp, GetOne, GetByPrefixScan, GetKeyList, Save, SaveBytes, Delete] <;>
      (cases hod : openDB bl st env with
       | error e => exact hdb
       | ok p =>
         obtain ⟨bl1, st1⟩ := p
         have hb1 := key bl1 st1 hod
         have hcl := closeDB_db_of_not_batch bl1 hb1
         dsimp only
         repeat' split
         all_goals exact hcl)
  · intro c hb hdb
    have hod := openDB_of_batch_some bl st env c hb hdb
    have hcl : closeDB bl = bl := closeDB_of_batch bl hb
    cases op <;>
      simp only [applyOp, GetOne, GetByPrefixScan, GetKeyList, Save, SaveBytes, Delete,
        hod] <;>
      (repeat' split) <;>
      simp [hcl, hdb]

/-- Closed witness for the lifecycle theorem, in both batch modes. -/
theorem connection_lifecycle_witness :
    (applyOp (.delete [98] [107]) ⟨none, false, [], none⟩ []
      ⟨none, 5, fun _ => 0⟩).handle.db = none ∧
    (applyOp (.delete [98] [107]) ⟨none, true, [], some 9⟩ []
      ⟨none, 5, fun _ => 0⟩).handle.db = some 9 :=
  ⟨(connection_lifecycle (.delete [98] [107]) ⟨none, false, [], none⟩ []
      ⟨none, 5, fun _ => 0⟩).1 rfl rfl,
   (connection_lifecycle (.delete [98] [107]) ⟨none, true, [], some 9⟩ []
      ⟨none, 5, fun _ => 0⟩).2 9 rfl rfl⟩

/-! ## C4 and C7: GetOne seek semantics -/

/-- C4. GetOne positions a cursor at the first stored key not below the
lookup key and returns that record's (decoded) value whenever the found key
has the lookup key as a prefix — a prefix match, not an exact match. -/
theorem getOne_prefix_match (bl bl1 : BoltLocknut) (st st1 : Store) (env : Env)
    (bucket key : Bytes) (bkt rest : Bucket) (k v d : Bytes)
    (h1 : openDB bl st env = .ok (bl1, st1))
    (h2 : key ≠ [])
    (h3 : findBucket st1 bucket = some bkt)
    (h4 : seek bkt key = (k, v) :: rest)
    (h5 : hasPfx k key = true)
    (h6 : decodeVal bl1.secret v = .ok d) :
    (applyOp (.getOne bucket key) bl st env).val = .bytes (some d) ∧
      (applyOp (.getOne bucket key) bl st env).err = none := by
  have hview : getOneView bl1.secret st1 bucket key = .ok (some d) := by
    unfold getOneView
    simp only [h3, h4]
    simp [h5, h6]
  simp [applyOp, GetOne, h1, h2, hview]

/-- Closed witness: with records under "taylor", GetOne("pii", "ta")
returns the value stored under "taylor". -/
theorem getOne_prefix_match_witness :
    (applyOp (.getOne (strBytes ("pii")) (strBytes ("ta")))
        ⟨none, false, [], none⟩ [(strBytes ("pii"), [(strBytes ("taylor"), [9, 8])])]
        ⟨none, 0, fun _ => 0⟩).val = .bytes (some [9, 8]) ∧
      (applyOp (.getOne (strBytes ("pii")) (strBytes ("ta")))
        ⟨none, false, [], none⟩ [(strBytes ("pii"), [(strBytes ("taylor"), [9, 8])])]
        ⟨none, 0, fun _ => 0⟩).err = none :=
  getOne_prefix_match ⟨none, false, [], none⟩ ⟨none, false, [], some 0⟩
    [(strBytes ("pii"), [(strBytes ("taylor"), [9, 8])])]
    [(strBytes ("pii"), [(strBytes ("taylor"), [9, 8])])]
    ⟨none, 0, fun _ => 0⟩ (strBytes ("pii")) (strBytes ("ta"))
    [(strBytes ("taylor"), [9, 8])] [] (strBytes ("taylor")) [9, 8] [9, 8]
    rfl (by decide) rfl rfl (by decide) rfl

/-- C7. When no stored key has the lookup key as a prefix, GetOne returns an
empty result and no error. -/
theorem getOne_no_match_empty_no_error (bl bl1 : BoltLocknut) (st st1 : Store)
    (env : Env) (bucket key : Bytes) (bkt : Bucket)
    (h1 : openDB bl st env = .ok (bl1, st1))
    (h2 : key ≠ [])
    (h3 : findBucket st1 bucket = some bkt)
    (h4 : ∀ p ∈ bkt, hasPfx p.1 key = false) :
    (applyOp (.getOne bucket key) bl st env).val = .bytes none ∧
      (applyOp (.getOne bucket key) bl st env).err = none := by
  have hview : getOneView bl1.secret st1 bucket key = .ok none := by
    unfold getOneView
    simp only [h3]
    cases hs : seek bkt key with
    | nil => rfl
    | cons p rest2 =>
      obtain ⟨k, v⟩ := p
      have hmem : (k, v) ∈ bkt := by
        have hsub : List.Sublist (seek bkt key) bkt := List.dropWhile_sublist _
        exact hsub.mem (by rw [hs]; exact List.mem_cons_self _ _)
      simp [h4 (k, v) hmem]
  simp [applyOp, GetOne, h1, h2, hview]

/-- Closed witness: a lookup whose prefix matches no stored key yields an
empty value and a nil error. -/
theorem getOne_no_match_witness :
    (applyOp (.getOne (strBytes ("pii")) (strBytes ("ta")))
        ⟨none, false, [], none⟩ [(strBytes ("pii"), [(strBytes ("zeta"), [1])])]
        ⟨none, 0, fun _ => 0⟩).val = .bytes none ∧
      (applyOp (.getOne (strBytes ("pii")) (strBytes ("ta")))
        ⟨none, false, [], none⟩ [(strBytes ("pii"), [(strBytes ("zeta"), [1])])]
        ⟨none, 0, fun _ => 0⟩).err = none :=
  getOne_no_match_empty_no_error ⟨none, false, [], none⟩ ⟨none, false, [], some 0⟩
    [(strBytes ("pii"), [(strBytes ("zeta"), [1])])]
    [(strBytes ("pii"), [(strBytes ("zeta"), [1])])]
    ⟨none, 0, fun _ => 0⟩ (strBytes ("pii")) (strBytes ("ta"))
    [(strBytes ("zeta"), [1])]
    rfl (by decide) rfl (by decide)

/-! ## C6: missing buckets — reads error, writes dereference nil -/

/-- C6 counterexample. On a missing bucket, Delete and SaveBytes do not
return a bucket-not-found error: they reach a nil bucket dereference
(panic), with a nil error value. -/
theorem write_missing_bucket_panics_counterexample :
    (applyOp (.delete (strBytes ("nope")) [107]) ⟨none, false, [], none⟩ []
        ⟨none, 0, fun _ => 0⟩).panicked = true ∧
      (applyOp (.delete (strBytes ("nope")) [107]) ⟨none, false, [], none⟩ []
        ⟨none, 0, fun _ => 0⟩).err = none ∧
      (applyOp (.saveBytes (strBytes ("nope")) [107] (some [1]))
        ⟨none, false, [], none⟩ [] ⟨none, 0, fun _ => 0⟩).panicked = true := by
  decide

/-- C6 amended. On a bucket missing from the store, the read operations
return the bucket-not-found error, while the write operations never check:
Delete panics on the nil bucket, and Save/SaveBytes panic once the
marshal/encrypt steps succeed. -/
theorem missing_bucket_behavior (bl bl1 : BoltLocknut) (st st1 : Store) (env : Env)
    (bucket key : Bytes)
    (h1 : openDB bl st env = .ok (bl1, st1))
    (h2 : findBucket st1 bucket = none) :
    (key ≠ [] →
      (applyOp (.getOne bucket key) bl st env).err = some errBucketNotFound) ∧
    (applyOp (.getByPrefixOp bucket key) bl st env).err = some errBucketNotFound ∧
    (applyOp (.getKeyList bucket key) bl st env).err = some errBucketNotFound ∧
    (key ≠ [] →
      (applyOp (.delete bucket key) bl st env).panicked = true ∧
      (applyOp (.delete bucket key) bl st env).err = none) ∧
    (∀ d enc, encodeVal bl1.secret d env.rand = .ok enc →
      (applyOp (.save bucket key (some d)) bl st env).panicked = true ∧
      (applyOp (.saveBytes bucket key (some d)) bl st env).panicked = true) := by
  refine ⟨?_, ?_, ?_, ?_, ?_⟩
  · intro hk
    have hview : getOneView bl1.secret st1 bucket key = .error errBucketNotFound := by
      unfold getOneView
      rw [h2]
    simp [applyOp, GetOne, h1, hk, hview]
  · simp [applyOp, GetByPrefixScan, h1, h2]
  · simp [applyOp, GetKeyList, h1, h2]
  · intro hk
    constructor <;> simp [applyOp, Delete, h1, hk, h2]
  · intro d enc henc
    constructor <;> simp [applyOp, Save, SaveBytes, h1, henc, h2]

/-- Closed witness for the amended missing-bucket theorem. -/
theorem missing_bucket_behavior_witness :
    (applyOp (.getOne (strBytes ("nope")) [107]) ⟨none, false, [], none⟩ []
        ⟨none, 0, fun _ => 0⟩).err = some errBucketNotFound ∧
      ((applyOp (.delete (strBytes ("nope")) [107]) ⟨none, false, [], none⟩ []
          ⟨none, 0, fun _ => 0⟩).panicked = true ∧
        (applyOp (.delete (strBytes ("nope")) [107]) ⟨none, false, [], none⟩ []
          ⟨none, 0, fun _ => 0⟩).err = none) ∧
      (applyOp (.save (strBytes ("nope")) [107] (some [5])) ⟨none, false, [], none⟩ []
          ⟨none, 0, fun _ => 0⟩).panicked = true :=
  ⟨(missing_bucket_behavior ⟨none, false, [], none⟩ ⟨none, false, [], some 0⟩ [] []
      ⟨none, 0, fun _ => 0⟩ (strBytes ("nope")) [107] rfl rfl).1 (by decide),
   (missing_bucket_behavior ⟨none, false, [], none⟩ ⟨none, false, [], some 0⟩ [] []
      ⟨none, 0, fun _ => 0⟩ (strBytes ("nope")) [107] rfl rfl).2.2.2.1 (by decide),
   ((missing_bucket_behavior ⟨none, false, [], none⟩ ⟨none, false, [], some 0⟩ [] []
      ⟨none, 0, fun _ => 0⟩ (strBytes ("nope")) [107] rfl rfl).2.2.2.2 [5] [5] rfl).1⟩

/-! ## C3: decrypt failure during GetByPrefix -/

/-- A concrete valid payload: the empty plaintext sealed under the key
0,1,...,31 with nonce bytes 0,...,11. -/
def encEmptyPayload : Bytes :=
  match Encrypt [] (List.range 32) (fun i => i) with
  | .ok p => p
  | .error _ => []

/-- C3 counterexample. With a decryptable record under key "a" and a
corrupt record under key "b", GetByPrefix returns the decrypt-failure
error together with the partial mapping holding the record decrypted
before the failure — the caller does receive that mapping. -/
theorem gbp_decrypt_failure_counterexample :
    (applyOp (.getByPrefixOp (strBytes ("pii")) [])
        ⟨some (List.range 32), false, [], none⟩
        [(strBytes ("pii"), [([97], encEmptyPayload), ([98], [1, 2, 3])])]
        ⟨none, 0, fun _ => 0⟩).err =
      some (errDecryptWrap errCiphertextShort) ∧
    (applyOp (.getByPrefixOp (strBytes ("pii")) [])
        ⟨some (List.range 32), false, [], none⟩
        [(strBytes ("pii"), [([97], encEmptyPayload), ([98], [1, 2, 3])])]
        ⟨none, 0, fun _ => 0⟩).val = .map [([97], [])] :=
  ⟨rfl, rfl⟩

/-- C3 amended. A decryption failure on any record aborts the scan with the
wrapped decrypt error; the error is returned to the caller, but alongside
it the partially-filled mapping of the records decrypted before the
failure is also returned (not withheld). -/
theorem gbp_failure_aborts_scan (bl bl1 : BoltLocknut) (st st1 : Store) (env : Env)
    (bucket pre : Bytes) (bkt : Bucket) (r : List (Bytes × Bytes)) (e : String)
    (h1 : openDB bl st env = .ok (bl1, st1))
    (h2 : findBucket st1 bucket = some bkt)
    (h3 : gbpLoop bl1.secret pre (seek bkt pre) = (r, some e)) :
    (applyOp (.getByPrefixOp bucket pre) bl st env).err = some e ∧
      (applyOp (.getByPrefixOp bucket pre) bl st env).val = .map r := by
  simp [applyOp, GetByPrefixScan, h1, h2, h3]

/-- Closed witness for the amended scan-abort theorem. -/
theorem gbp_failure_aborts_scan_witness :
    (applyOp (.getByPrefixOp (strBytes ("pii")) [107])
        ⟨some (List.range 32), false, [], none⟩
        [(strBytes ("pii"), [([107], [1, 2, 3])])]
        ⟨none, 0, fun _ => 0⟩).err = some (errDecryptWrap errCiphertextShort) ∧
      (applyOp (.getByPrefixOp (strBytes ("pii")) [107])
        ⟨some (List.range 32), false, [], none⟩
        [(strBytes ("pii"), [([107], [1, 2, 3])])]
        ⟨none, 0, fun _ => 0⟩).val = .map [] :=
  gbp_failure_aborts_scan ⟨some (List.range 32), false, [], none⟩
    ⟨some (List.range 32), false, [], some 0⟩
    [(strBytes ("pii"), [([107], [1, 2, 3])])]
    [(strBytes ("pii"), [([107], [1, 2, 3])])]
    ⟨none, 0, fun _ => 0⟩ (strBytes ("pii")) [107]
    [([107], [1, 2, 3])] [] (errDecryptWrap errCiphertextShort)
    rfl rfl rfl

/-! ## C9: no record is ever stored under the empty key -/

/-- Every record of every bucket has a non-empty key. -/
def recordKeysNonEmpty (st : Store) : Prop :=
  ∀ p ∈ st, ∀ q ∈ p.2, q.1 ≠ ([] : Bytes)

theorem bucketInsert_mem (k v : Bytes) (q : Bytes × Bytes) :
    ∀ bkt : Bucket, q ∈ bucketInsert bkt k v → q ∈ bkt ∨ q = (k, v)
  | [], h => by
    simp [bucketInsert] at h
    exact Or.inr h
  | (k', v') :: rest, h => by
    unfold bucketInsert at h
    split at h
    · rcases List.mem_cons.mp h with hq | hq
      · exact Or.inr hq
      · exact Or.inl (List.mem_cons_of_mem _ hq)
    · split at h
      · rcases List.mem_cons.mp h with hq | hq
        · exact Or.inr hq
        · exact Or.inl hq
      · rcases List.mem_cons.mp h with hq | hq
        · exact Or.inl (hq ▸ List.mem_cons_self _ _)
        · rcases bucketInsert_mem k v q rest hq with h2 | h2
          · exact Or.inl (List.mem_cons_of_mem _ h2)
          · exact Or.inr h2

theorem createBucket_pres (st st' : Store) (n : Bytes)
    (h : createBucketIfNotExists st n = .ok st') (hne : recordKeysNonEmpty st) :
    recordKeysNonEmpty st' := by
  unfold createBucketIfNotExists at h
  split at h
  · exact absurd h (by simp)
  · split at h
    · simp only [Except.ok.injEq] at h
      rw [← h]
      exact hne
    · simp only [Except.ok.injEq] at h
      rw [← h]
      intro p hp q hq
      rcases List.mem_append.mp hp with hp | hp
      · exact hne p hp q hq
      · simp only [List.mem_singleton] at hp
        rw [hp] at hq
        simp at hq

theorem initBuckets_pres : ∀ (names : List Bytes) (st st' : Store),
    initBuckets st names = .ok st' → recordKeysNonEmpty st → recordKeysNonEmpty st'
  | [], st, st', h, hne => by
    simp only [initBuckets, Except.ok.injEq] at h
    rw [← h]
    exact hne
  | n :: rest, st, st', h, hne => by
    unfold initBuckets at h
    cases hc : createBucketIfNotExists st n with
    | error e =>
      simp only [hc] at h
      exact absurd h (by simp)
    | ok st2 =>
      simp only [hc] at h
      exact initBuckets_pres rest st2 st' h (createBucket_pres st st2 n hc hne)

theorem openDB_pres (bl : BoltLocknut) (st : Store) (env : Env)
    (bl1 : BoltLocknut) (st1 : Store) (h : openDB bl st env = .ok (bl1, st1))
    (hne : recordKeysNonEmpty st) : recordKeysNonEmpty st1 := by
  unfold openDB at h
  split at h
  · simp only [Except.ok.injEq, Prod.mk.injEq] at h
    rw [← h.2]
    exact hne
  · split at h
    · exact absurd h (by simp)
    · split at h
      · exact absurd h (by simp)
      · rename_i st2 heq
        simp only [Except.ok.injEq, Prod.mk.injEq] at h
        rw [← h.2]
        exact initBuckets_pres bl.buckets st st2 heq hne

theorem findBucket_mem (st : Store) (n : Bytes) (bkt : Bucket)
    (h : findBucket st n = some bkt) : ∃ nm, (nm, bkt) ∈ st := by
  unfold findBucket at h
  cases hf : st.find? (fun p => p.1 == n) with
  | none =>
    simp only [hf, Option.map_none'] at h
    exact absurd h (by simp)
  | some p =>
    simp only [hf, Option.map_some', Option.some.injEq] at h
    refine ⟨p.1, ?_⟩
    rw [← h]
    exact List.mem_of_find?_eq_some hf

theorem setBucket_pres (st : Store) (n : Bytes) (recs : Bucket)
    (hne : recordKeysNonEmpty st) (hrecs : ∀ q ∈ recs, q.1 ≠ ([] : Bytes)) :
    recordKeysNonEmpty (setBucket st n recs) := by
  intro p hp q hq
  unfold setBucket at hp
  rcases List.mem_map.mp hp with ⟨p0, hp0, hmap⟩
  split at hmap
  · rw [← hmap] at hq
    exact hrecs q hq
  · rw [← hmap] at hq
    exact hne p0 hp0 q hq

/-- SaveBytes is the same store transformation as Save once the marshal
step is modelled by supplying the serialized bytes. -/
theorem saveBytes_eq_save : SaveBytes = Save := rfl

/-- C9. Save and SaveBytes never store a record under the empty key: the
non-empty-key invariant of the store is preserved by any save, and an
empty-key request that reaches the engine is rejected with the key-required
error, leaving the store's records unchanged. -/
theorem save_never_stores_empty_key (bl : BoltLocknut) (st : Store) (env : Env)
    (b k : Bytes) (d : Option Bytes) (hne : recordKeysNonEmpty st) :
    recordKeysNonEmpty ((applyOp (.save b k d) bl st env).store) ∧
    recordKeysNonEmpty ((applyOp (.saveBytes b k d) bl st env).store) ∧
    (∀ bl1 st1 bkt dd enc,
      openDB bl st env = .ok (bl1, st1) →
      findBucket st1 b = some bkt →
      encodeVal bl1.secret dd env.rand = .ok enc →
      (applyOp (.save b [] (some dd)) bl st env).err = some errKeyRequired ∧
      (applyOp (.save b [] (some dd)) bl st env).store = st1) := by
  have main : recordKeysNonEmpty ((applyOp (.save b k d) bl st env).store) := by
    simp only [applyOp, Save]
    cases hod : openDB bl st env with
    | error e => exact hne
    | ok p =>
      obtain ⟨bl1, st1⟩ := p
      have hne1 : recordKeysNonEmpty st1 := openDB_pres bl st env bl1 st1 hod hne
      cases d with
      | none => exact hne1
      | some dd =>
        dsimp only
        cases henc : encodeVal bl1.secret dd env.rand with
        | error e => exact hne1
        | ok enc =>
          dsimp only
          cases hfb : findBucket st1 b with
          | none => exact hne1
          | some bkt =>
            dsimp only
            cases hput : bboltPut bkt k enc with
            | error e => exact hne1
            | ok bkt' =>
              obtain ⟨hk, hbkt'⟩ := bboltPut_ok bkt k enc bkt' hput
              dsimp only
              refine setBucket_pres st1 b bkt' hne1 ?_
              intro q hq
              rw [hbkt'] at hq
              rcases bucketInsert_mem k enc q bkt hq with hq2 | hq2
              · obtain ⟨nm, hmem⟩ := findBucket_mem st1 b bkt hfb
                exact hne1 (nm, bkt) hmem q hq2
              · rw [hq2]
                exact hk
  refine ⟨main, main, ?_⟩
  intro bl1 st1 bkt dd enc h1 h2 henc
  have hput : bboltPut bkt [] enc = .error errKeyRequired := rfl
  constructor <;> simp [applyOp, Save, h1, h2, henc, hput]

/-- Closed witness for the empty-key rejection and invariant preservation. -/
theorem save_never_stores_empty_key_witness :
    recordKeysNonEmpty ((applyOp (.save (strBytes ("b")) [107] (some [5]))
      ⟨none, false, [], none⟩ [(strBytes ("b"), [])] ⟨none, 0, fun _ => 0⟩).store) ∧
    (applyOp (.save (strBytes ("b")) [] (some [5])) ⟨none, false, [], none⟩
      [(strBytes ("b"), [])] ⟨none, 0, fun _ => 0⟩).err = some errKeyRequired :=
  ⟨(save_never_stores_empty_key ⟨none, false, [], none⟩ [(strBytes ("b"), [])]
      ⟨none, 0, fun _ => 0⟩ (strBytes ("b")) [107] (some [5])
      (by intro p hp q hq; simp only [List.mem_singleton] at hp; rw [hp] at hq;
          simp at hq)).1,
   ((save_never_stores_empty_key ⟨none, false, [], none⟩ [(strBytes ("b"), [])]
      ⟨none, 0, fun _ => 0⟩ (strBytes ("b")) [107] (some [5])
      (by intro p hp q hq; simp only [List.mem_singleton] at hp; rw [hp] at hq;
          simp at hq)).2.2
      ⟨none, false, [], some 0⟩ [(strBytes ("b"), [])] [] [5] [5] rfl rfl rfl).1⟩

/-! ## C10: the secret is always set; crypto is always applied -/

theorem getOneView_ok_some (s : Bytes) (st : Store) (b k r : Bytes)
    (h : getOneView (some s) st b k = .ok (some r)) :
    ∃ v, Decrypt v s = .ok r := by
  unfold getOneView at h
  cases hfb : findBucket st b with
  | none =>
    simp only [hfb] at h
    exact absurd h (by simp)
  | some bkt =>
    simp only [hfb] at h
    cases hseek : seek bkt k with
    | nil =>
      simp only [hseek] at h
      simp at h
    | cons p rest =>
      obtain ⟨k1, v⟩ := p
      simp only [hseek] at h
      split at h
      · unfold decodeVal at h
        cases hD : Decrypt v s with
        | error e =>
          simp only [hD] at h
          exact absurd h (by simp)
        | ok d2 =>
          simp only [hD, Except.ok.injEq, Option.some.injEq] at h
          exact ⟨v, by rw [hD, h]⟩
      · simp at h

/-- C10. SetSecret always leaves a non-nil secret in place (a nil or empty
input becomes the SHA-256 digest), so every constructed handle carries a
secret; with a secret present, a successful Save stores exactly the
encrypted payload (never the raw value), and any value GetOne returns is a
Decrypt output (never raw stored bytes). -/
theorem secret_always_set_crypto_always_applied :
    (∀ (bl : BoltLocknut) (sec : Option Bytes),
      ((SetSecret bl sec).secret).isSome = true) ∧
    (∀ (sec : Option Bytes) (batch : Bool) (bks : List Bytes) (st : Store) (env : Env)
        (bl' : BoltLocknut) (st' : Store),
      NewBoltLocknut sec batch bks st env = .ok (bl', st') →
      (bl'.secret).isSome = true) ∧
    (∀ (bl bl1 : BoltLocknut) (st st1 : Store) (env : Env) (b k d s : Bytes)
        (bkt : Bucket) (enc : Bytes),
      bl.secret = some s →
      openDB bl st env = .ok (bl1, st1) →
      findBucket st1 b = some bkt →
      Encrypt d s env.rand = .ok enc →
      (applyOp (.save b k (some d)) bl st env).err = none →
      (applyOp (.save b k (some d)) bl st env).store =
        setBucket st1 b (bucketInsert bkt k enc)) ∧
    (∀ (bl : BoltLocknut) (st : Store) (env : Env) (b k s r : Bytes),
      bl.secret = some s →
      (applyOp (.getOne b k) bl st env).val = .bytes (some r) →
      ∃ v, Decrypt v s = .ok r) := by
  have hset : ∀ (bl : BoltLocknut) (sec : Option Bytes),
      ((SetSecret bl sec).secret).isSome = true := by
    intro bl sec
    unfold SetSecret
    split
    · simp
    · cases sec with
      | none => simp at *
      | some s => simp
  refine ⟨hset, ?_, ?_, ?_⟩
  · intro sec batch bks st env bl' st' h
    unfold NewBoltLocknut at h
    cases hod : openDB (SetSecret ⟨none, batch, bks, none⟩ sec) st env with
    | error e =>
      simp only [hod] at h
      exact absurd h (by simp)
    | ok p =>
      obtain ⟨bl2, st2⟩ := p
      simp only [hod, Except.ok.injEq, Prod.mk.injEq] at h
      rw [← h.1, closeDB_secret,
        openDB_ok_secret (SetSecret ⟨none, batch, bks, none⟩ sec) st env bl2 st2 hod]
      exact hset ⟨none, batch, bks, none⟩ sec
  · intro bl bl1 st st1 env b k d s bkt enc hsec hod hfb henc herr
    have hsec1 : bl1.secret = some s := by
      rw [openDB_ok_secret bl st env bl1 st1 hod, hsec]
    cases hput : bboltPut bkt k enc with
    | error e =>
      have hbad : (applyOp (.save b k (some d)) bl st env).err = some e := by
        simp [applyOp, Save, hod, hsec1, encodeVal, henc, hfb, hput]
      rw [hbad] at herr
      simp at herr
    | ok bkt' =>
      obtain ⟨hk, hbkt'⟩ := bboltPut_ok bkt k enc bkt' hput
      simp [applyOp, Save, hod, hsec1, encodeVal, henc, hfb, hput, hbkt']
  · intro bl st env b k s r hsec hval
    cases hod : openDB bl st env with
    | error e =>
      have hbad : (applyOp (.getOne b k) bl st env).val = .bytes none := by
        simp [applyOp, GetOne, hod]
      rw [hbad] at hval
      simp at hval
    | ok p =>
      obtain ⟨bl1, st1⟩ := p
      have hsec1 : bl1.secret = some s := by
        rw [openDB_ok_secret bl st env bl1 st1 hod, hsec]
      by_cases hk : k = []
      · have hbad : (applyOp (.getOne b k) bl st env).val = .bytes none := by
          simp [applyOp, GetOne, hod, hk]
        rw [hbad] at hval
        simp at hval
      · cases hview : getOneView bl1.secret st1 b k with
        | error e =>
          have hbad : (applyOp (.getOne b k) bl st env).val = .bytes none := by
            simp [applyOp, GetOne, hod, hk, hview]
          rw [hbad] at hval
          simp at hval
        | ok r2 =>
          have hgood : (applyOp (.getOne b k) bl st env).val = .bytes r2 := by
            simp [applyOp, GetOne, hod, hk, hview]
          rw [hgood] at hval
          simp only [RVal.bytes.injEq] at hval
          rw [hsec1, hval] at hview
          exact getOneView_ok_some s st1 b k r hview

/-- Closed witness: a handle built by the constructor from a short secret
carries a non-nil secret, and SetSecret of a nil secret yields one too. -/
theorem secret_always_set_witness :
    ((SetSecret ⟨none, false, [], none⟩ none).secret).isSome = true ∧
    ((⟨some (sha256 [1, 2, 3]), false, [], none⟩ : BoltLocknut).secret).isSome = true :=
  ⟨secret_always_set_crypto_always_applied.1 ⟨none, false, [], none⟩ none,
   secret_always_set_crypto_always_applied.2.1 (some [1, 2, 3]) false [] []
     ⟨none, 0, fun _ => 0⟩ ⟨some (sha256 [1, 2, 3]), false, [], none⟩ [] rfl⟩

end Locknut
